/-
  Verification development for the SprintSense KPI / schema / forecast core.

  Shallow embedding of:
    - app/lib/kpis.py      (five per-sprint KPI aggregations over the canonical dataset)
    - app/lib/schema.py    (validate_and_normalize and the Issue row contract)
    - app/lib/forecast.py  (mc_velocity_forecast)
    - app/pages/02_Trends.py (scenario adjustment: eff_mult / fc_adj)

  Modelling conventions:
    - Timestamps are integers (e.g. epoch seconds); pandas NaT / NaN / None
      missing values are all `Option.none` on canonical data and the single
      `RawCell.missing` constructor on raw data.
    - A canonical dataset is a `List Row`; each pandas column is a field of
      `Row`.  The extra `cycle_days` field models the column that
      `calc_cycle_time` adds to its (copied) frame; canonical input tables
      carry `none` there (the column is absent from the canonical schema).
    - pandas `groupby("sprint_id")` aggregations are modelled as a map over
      the sorted deduplicated list of (non-null) keys, which is exactly the
      index pandas produces; `sorted(set(...))` is modelled the same way.
    - pandas boolean masks evaluate null comparisons to `false`, hence the
      explicit `isSome` guards mirroring the `.notna()` conjuncts of the
      source masks.
-/
import Mathlib

namespace SprintSense

/-- One row of the canonical dataset (the columns of `CSV_HEADERS` in
app/lib/schema.py).  Every column is nullable at the frame level, so each
field is an `Option`.  `cycle_days` models the derived column assigned by
`calc_cycle_time`; it is `none` on canonical input. -/
structure Row where
  issue_id : Option String := none
  issue_type : Option String := none
  status : Option String := none
  story_points : Option ℚ := none
  assignee : Option String := none
  reporter : Option String := none
  created : Option ℤ := none
  updated : Option ℤ := none
  resolved : Option ℤ := none
  sprint_id : Option String := none
  sprint_name : Option String := none
  sprint_start : Option ℤ := none
  sprint_end : Option ℤ := none
  parent_id : Option String := none
  labels : Option String := none
  priority : Option String := none
  cycle_days : Option ℚ := none
  deriving DecidableEq, Repr, Inhabited

/-- The sorted, duplicate-free list of keys: pandas' `groupby` index and
`sorted(set(...))` both produce exactly this. -/
def sortedKeys (l : List String) : List String :=
  List.insertionSort (· ≤ ·) l.dedup

/-- The mask of `_resolved_within_sprint` (kpis.py lines 15-22): sprint_id,
sprint_start, sprint_end, resolved all present and
`sprint_start <= resolved <= sprint_end`.  Null comparisons are `false` in
pandas, matching the `Option` pattern match. -/
def qualifies (r : Row) : Bool :=
  r.sprint_id.isSome &&
  (match r.sprint_start, r.sprint_end, r.resolved with
   | some s, some e, some v => decide (s ≤ v) && decide (v ≤ e)
   | _, _, _ => false)

/-- `_resolved_within_sprint` (kpis.py): `d.loc[mask]` on a copy of the
input frame. -/
def resolvedWithinSprint (t : List Row) : List Row :=
  t.filter qualifies

/-- `_parse_dates` (kpis.py lines 5-10): `pd.to_datetime(..., errors="coerce")`
on columns that already hold timestamps-or-missing is the identity; on the
canonical dataset (dates are `Option ℤ`) the helper returns a copy with the
same values. -/
def parseDates (t : List Row) : List Row := t

/-- `calc_velocity` (kpis.py lines 27-32): sum of `story_points` over
qualifying rows after `dropna(subset=["story_points"])`, grouped by
`sprint_id`, sorted by sprint id. -/
def calc_velocity (t : List Row) : List (String × ℚ) :=
  let d := (resolvedWithinSprint t).filter (fun r => r.story_points.isSome)
  (sortedKeys (d.filterMap (·.sprint_id))).map
    (fun s => (s, ((d.filter (fun r => r.sprint_id == some s)).filterMap
      (·.story_points)).sum))

/-- `calc_throughput` (kpis.py lines 34-38): per-sprint
`["issue_id"].count()` over qualifying rows — pandas `count` counts the
non-null `issue_id` cells of each group, it does not deduplicate. -/
def calc_throughput (t : List Row) : List (String × ℕ) :=
  let d := resolvedWithinSprint t
  (sortedKeys (d.filterMap (·.sprint_id))).map
    (fun s => (s, (d.filter
      (fun r => r.sprint_id == some s && r.issue_id.isSome)).length))

/-- Rows kept by `_unfinished_at_end` (kpis.py lines 45-48): sprint_id and
sprint_end present, and resolved missing or after sprint_end. -/
def unfinishedAtEnd (r : Row) : Bool :=
  r.sprint_id.isSome &&
  (match r.sprint_end, r.resolved with
   | some e, some v => decide (e < v)
   | some _, none => true
   | none, _ => false)

/-- `calc_carryover_rate` (kpis.py lines 50-68): roster =
`sorted(set(df["sprint_id"].dropna()))`; denominator = per-sprint count of
non-null `issue_id` among rows with a sprint_id; numerator = the same count
restricted to `_unfinished_at_end` rows; rate = numerator/denominator, `0.0`
when the denominator is zero (`fillna(0)` covers sprints absent from either
grouped count). -/
def calc_carryover_rate (t : List Row) : List (String × ℚ) :=
  (sortedKeys (t.filterMap (·.sprint_id))).map (fun s =>
    let total := (t.filter
      (fun r => r.sprint_id == some s && r.issue_id.isSome)).length
    let unfinished := (t.filter
      (fun r => r.sprint_id == some s && r.issue_id.isSome &&
        unfinishedAtEnd r)).length
    (s, if total = 0 then 0 else (unfinished : ℚ) / (total : ℚ)))

/-- Median with pandas/numpy semantics: sort, take the middle element for
odd length, the mean of the two middle elements for even length. -/
def median (l : List ℚ) : ℚ :=
  let s := List.insertionSort (· ≤ ·) l
  let n := s.length
  if n = 0 then 0
  else if n % 2 = 1 then s.getD (n / 2) 0
  else (s.getD (n / 2 - 1) 0 + s.getD (n / 2) 0) / 2

/-- `calc_cycle_time` (kpis.py lines 69-77): over qualifying rows (canonical
tables have no `in_progress_start` column, so the baseline falls back to
`created`), drop rows missing `created` or `resolved`, assign
`cycle_days = (resolved - created) / 86400` (fractional days), and report
the per-sprint median. -/
def calc_cycle_time (t : List Row) : List (String × ℚ) :=
  let d0 := resolvedWithinSprint (parseDates t)
  let d := (d0.filter (fun r => r.created.isSome && r.resolved.isSome)).map
    (fun r => { r with cycle_days :=
      match r.resolved, r.created with
      | some v, some c => some (((v - c : ℤ) : ℚ) / 86400)
      | _, _ => none })
  (sortedKeys (d.filterMap (·.sprint_id))).map
    (fun s => (s, median ((d.filter
      (fun r => r.sprint_id == some s)).filterMap (·.cycle_days))))

/-- The bug test of `calc_defect_ratio` (kpis.py line 82):
`d["issue_type"].str.lower() == "bug"` — exact equality of the lowercased
type with the literal `"bug"`; a null type compares `false`. -/
def isBugRow (r : Row) : Bool :=
  match r.issue_type with
  | some ty => ty.toLower == "bug"
  | none => false

/-- `calc_defect_ratio` (kpis.py lines 79-87): roster =
`sorted(set(d["sprint_id"]))` over the qualifying rows only; per-sprint
counts of non-null `issue_id` rows (all rows / bug-typed rows); ratio =
bugs/total, `0.0` when total is zero. -/
def calc_defect_ratio (t : List Row) : List (String × ℚ) :=
  let d := resolvedWithinSprint t
  (sortedKeys (d.filterMap (·.sprint_id))).map (fun s =>
    let total := (d.filter
      (fun r => r.sprint_id == some s && r.issue_id.isSome)).length
    let bugs := (d.filter
      (fun r => r.sprint_id == some s && r.issue_id.isSome &&
        isBugRow r)).length
    (s, if total = 0 then 0 else (bugs : ℚ) / (total : ℚ)))

/-! ## Schema normalizer (app/lib/schema.py)

Raw tabular data before normalization.  A cell is a string, a number, a
timestamp, or missing; pandas' NaN / NaT / None missing markers are all the
single `RawCell.missing` constructor.  Date strings that pandas'
`pd.to_datetime` would parse are represented as `timeV` cells at ingest and
numeric strings that `pd.to_numeric` would parse as `numV` cells, so the
`errors="coerce"` coercions keep parseable values and turn everything else
missing. -/
inductive RawCell where
  | strV (s : String)
  | numV (q : ℚ)
  | timeV (t : ℤ)
  | missing
  deriving DecidableEq, Repr, Inhabited

/-- One raw row: a cell for each column of `CSV_HEADERS`.  Whether a column
actually exists in the frame is recorded separately in `RawTable.cols`. -/
structure RawRow where
  issue_id : RawCell := .missing
  issue_type : RawCell := .missing
  status : RawCell := .missing
  story_points : RawCell := .missing
  assignee : RawCell := .missing
  reporter : RawCell := .missing
  created : RawCell := .missing
  updated : RawCell := .missing
  resolved : RawCell := .missing
  sprint_id : RawCell := .missing
  sprint_name : RawCell := .missing
  sprint_start : RawCell := .missing
  sprint_end : RawCell := .missing
  parent_id : RawCell := .missing
  labels : RawCell := .missing
  priority : RawCell := .missing
  deriving DecidableEq, Repr, Inhabited

/-- A raw frame: the set of columns present, and the rows. -/
structure RawTable where
  cols : List String
  rows : List RawRow
  deriving DecidableEq, Repr, Inhabited

/-- `REQUIRED_COLS` of schema.py. -/
def REQUIRED_COLS : List String :=
  ["issue_id", "issue_type", "status", "story_points",
   "created", "sprint_id", "sprint_start", "sprint_end"]

/-- `CSV_HEADERS` of schema.py. -/
def CSV_HEADERS : List String :=
  ["issue_id", "issue_type", "status", "story_points", "assignee",
   "reporter", "created", "updated", "resolved", "sprint_id", "sprint_name",
   "sprint_start", "sprint_end", "parent_id", "labels", "priority"]

/-- `pd.to_datetime(x, errors="coerce")` on one cell: timestamps survive,
everything else (including strings pandas cannot parse — parseable date
strings are already `timeV` in this model) becomes missing. -/
def dcoerce : RawCell → RawCell
  | .timeV t => .timeV t
  | _ => .missing

/-- `pd.to_numeric(x, errors="coerce")` on one cell. -/
def ncoerce : RawCell → RawCell
  | .numV q => .numV q
  | _ => .missing

/-- `_coerce_dates(df, DATE_COLS)`: coerce each date column that exists. -/
def coerce_dates (cols : List String) (r : RawRow) : RawRow :=
  { r with
    created := if cols.contains "created" then dcoerce r.created else r.created
    updated := if cols.contains "updated" then dcoerce r.updated else r.updated
    resolved :=
      if cols.contains "resolved" then dcoerce r.resolved else r.resolved
    sprint_start :=
      if cols.contains "sprint_start" then dcoerce r.sprint_start
      else r.sprint_start
    sprint_end :=
      if cols.contains "sprint_end" then dcoerce r.sprint_end
      else r.sprint_end }

/-- `_coerce_nums(df, NUM_COLS)`: `NUM_COLS = ⦃story_points⦄`. -/
def coerce_nums (cols : List String) (r : RawRow) : RawRow :=
  { r with story_points :=
      if cols.contains "story_points" then ncoerce r.story_points
      else r.story_points }

/-- pandas `isna` on one cell. -/
def isna : RawCell → Bool
  | .missing => true
  | _ => false

/-- Python `str.title()` over a character list: a cased character after a
non-alphabetic character is uppercased, after an alphabetic one lowercased. -/
def titlecaseAux : Bool → List Char → List Char
  | _, [] => []
  | prevAlpha, c :: cs =>
      (if c.isAlpha then (if prevAlpha then c.toLower else c.toUpper) else c)
        :: titlecaseAux c.isAlpha cs

/-- Python `str.title()`. -/
def titlecase (s : String) : String := String.mk (titlecaseAux false s.data)

/-- `astype("string")` on one cell: strings and missing survive; other
values get their Python string representation (modelled with `toString`). -/
def strCast : RawCell → RawCell
  | .strV s => .strV s
  | .missing => .missing
  | .numV q => .strV (toString q)
  | .timeV t => .strV (toString t)

/-- `.str.strip().str.lower()` after a string cast (issue_type column). -/
def lowerCast (c : RawCell) : RawCell :=
  match strCast c with
  | .strV s => .strV s.trim.toLower
  | o => o

/-- `.str.strip().str.title()` after a string cast (status column). -/
def titleCast (c : RawCell) : RawCell :=
  match strCast c with
  | .strV s => .strV (titlecase s.trim)
  | o => o

/-- The "Light normalization" block of `validate_and_normalize`:
sprint_id cast to string, issue_type stripped+lowercased, status
stripped+title-cased — each only when the column exists. -/
def normalizeCase (cols : List String) (r : RawRow) : RawRow :=
  { r with
    sprint_id := if cols.contains "sprint_id" then strCast r.sprint_id
      else r.sprint_id
    issue_type := if cols.contains "issue_type" then lowerCast r.issue_type
      else r.issue_type
    status := if cols.contains "status" then titleCast r.status
      else r.status }

/-- `s.where(pd.notna(s), None)` on one cell: missing values become the
explicit no-value marker.  NaN and None are both `missing` in this model,
so the operation is computationally the identity, as in the source it only
changes the Python representation of missingness. -/
def noneify (c : RawCell) : RawCell := if isna c then .missing else c

/-- `_nan_to_none_for_optional` (schema.py lines 59-71): applied to the
optional string columns and the optional numeric column that exist. -/
def nan_to_none_for_optional (cols : List String) (r : RawRow) : RawRow :=
  { r with
    assignee := if cols.contains "assignee" then noneify r.assignee
      else r.assignee
    reporter := if cols.contains "reporter" then noneify r.reporter
      else r.reporter
    sprint_name := if cols.contains "sprint_name" then noneify r.sprint_name
      else r.sprint_name
    parent_id := if cols.contains "parent_id" then noneify r.parent_id
      else r.parent_id
    labels := if cols.contains "labels" then noneify r.labels else r.labels
    priority := if cols.contains "priority" then noneify r.priority
      else r.priority
    story_points := if cols.contains "story_points" then noneify r.story_points
      else r.story_points }

/-- Pydantic check for a required `str` field of `Issue`: the record key
must be present (the record holds the columns of `CSV_HEADERS ∩ cols`) and
hold a string — pydantic v2 neither accepts None nor coerces numbers. -/
def okRequiredStr (present : Bool) (c : RawCell) : Bool :=
  present && (match c with | .strV _ => true | _ => false)

/-- Pydantic check for a required `datetime` field (post-coercion cells are
timestamps or missing). -/
def okRequiredDate (present : Bool) (c : RawCell) : Bool :=
  present && (match c with | .timeV _ => true | _ => false)

/-- Pydantic check for `Optional[datetime]` (default None when absent). -/
def okOptionalDate (present : Bool) (c : RawCell) : Bool :=
  if present then
    (match c with | .timeV _ => true | .missing => true | _ => false)
  else true

/-- Pydantic check for an `Optional[str]` field. -/
def okOptionalStr (present : Bool) (c : RawCell) : Bool :=
  if present then
    (match c with | .strV _ => true | .missing => true | _ => false)
  else true

/-- Pydantic check for `story_points : Optional[float] = Field(default=None,
ge=0)`. -/
def okPoints (present : Bool) (c : RawCell) : Bool :=
  if present then
    (match c with
     | .numV q => decide (0 ≤ q)
     | .missing => true
     | _ => false)
  else true

/-- `Issue.model_validate(rec)` succeeding on the record built from the
columns of `CSV_HEADERS` present in the frame (schema.py lines 10-26 and
111-131; `_noneify` has already made every missing value None, which the
single `missing` constructor models). -/
def issueOk (cols : List String) (r : RawRow) : Bool :=
  okRequiredStr (cols.contains "issue_id") r.issue_id &&
  okRequiredStr (cols.contains "issue_type") r.issue_type &&
  okRequiredStr (cols.contains "status") r.status &&
  okPoints (cols.contains "story_points") r.story_points &&
  okOptionalStr (cols.contains "assignee") r.assignee &&
  okOptionalStr (cols.contains "reporter") r.reporter &&
  okRequiredDate (cols.contains "created") r.created &&
  okOptionalDate (cols.contains "updated") r.updated &&
  okOptionalDate (cols.contains "resolved") r.resolved &&
  okRequiredStr (cols.contains "sprint_id") r.sprint_id &&
  okOptionalStr (cols.contains "sprint_name") r.sprint_name &&
  okRequiredDate (cols.contains "sprint_start") r.sprint_start &&
  okRequiredDate (cols.contains "sprint_end") r.sprint_end &&
  okOptionalStr (cols.contains "parent_id") r.parent_id &&
  okOptionalStr (cols.contains "labels") r.labels &&
  okOptionalStr (cols.contains "priority") r.priority

/-- The row-validation loop of `validate_and_normalize`: collect an error
per invalid row, and after the fifth append a truncation marker and stop. -/
def rowErrors (cols : List String) : ℕ → List RawRow → List String →
    List String
  | _, [], errs => errs
  | idx, r :: rs, errs =>
    if issueOk cols r then rowErrors cols (idx + 1) rs errs
    else
      let errs' := errs ++ ["row " ++ toString idx]
      if 5 ≤ errs'.length then errs' ++ ["…more rows invalid"]
      else rowErrors cols (idx + 1) rs errs'

/-- The error kind raised by the Normalizer (spec §7 calls it SchemaError;
the source raises a `ValueError` carrying this aggregated problem list). -/
abbrev SchemaError : Type := List String

/-- The dataset-level problems found before row validation: the missing
required columns message and the null-identifier messages, in source
order. -/
def frameProblems (t : RawTable) : List String :=
  let missingCols := REQUIRED_COLS.filter (fun c => !(t.cols.contains c))
  (if missingCols ≠ [] then ["Missing columns: " ++ toString missingCols]
   else []) ++
  (if t.cols.contains "issue_id" && t.rows.any (fun r => isna r.issue_id)
   then ["Null values found in issue_id"] else []) ++
  (if t.cols.contains "sprint_id" && t.rows.any (fun r => isna r.sprint_id)
   then ["Null values found in sprint_id"] else []) ++
  (if t.cols.contains "status" && t.rows.any (fun r => isna r.status)
   then ["Null values found in status"] else [])

/-- Table-level `_coerce_dates` followed by `_coerce_nums`. -/
def coerceTable (t : RawTable) : RawTable :=
  { t with rows := t.rows.map (fun r => coerce_nums t.cols
      (coerce_dates t.cols r)) }

/-- Table-level light normalization (casing). -/
def normalizeCaseTable (t : RawTable) : RawTable :=
  { t with rows := t.rows.map (normalizeCase t.cols) }

/-- Table-level `_nan_to_none_for_optional`. -/
def noneifyTable (t : RawTable) : RawTable :=
  { t with rows := t.rows.map (nan_to_none_for_optional t.cols) }

/-- `validate_and_normalize` (schema.py lines 73-135): check required
columns, coerce types on a copy, check null identifiers, raise on any
problem; otherwise normalize casing, convert optional missing values to the
no-value marker, optionally validate every row against the `Issue`
contract, and raise if any row is invalid. -/
def validate_and_normalize (df : RawTable) (validate_rows : Bool := true) :
    Except SchemaError RawTable :=
  let out := coerceTable df
  let problems := frameProblems out
  if problems ≠ [] then .error problems
  else
    let out := noneifyTable (normalizeCaseTable out)
    if validate_rows then
      let errs := rowErrors out.cols 0 out.rows []
      if errs ≠ [] then .error ("Row validation failed" :: errs)
      else .ok out
    else .ok out

/-! ## Velocity forecaster (app/lib/forecast.py) -/

/-- One row of the forecast table: columns step, mean, p10, p50, p90. -/
structure FRow where
  step : ℤ
  mean : ℚ
  p10 : ℚ
  p50 : ℚ
  p90 : ℚ
  deriving DecidableEq, Repr, Inhabited

/-- `np.arange(1, horizon + 1)`: empty when `horizon < 1`. -/
def stepsList (horizon : ℤ) : List ℤ :=
  (List.range horizon.toNat).map (fun j => (Int.ofNat j) + 1)

/-- numpy percentile with linear interpolation: position
`q/100 * (n - 1)` into the sorted sample, interpolating between the two
neighbouring order statistics. -/
def percentile (q : ℚ) (l : List ℚ) : ℚ :=
  let s := List.insertionSort (· ≤ ·) l
  let n := s.length
  if n = 0 then 0
  else
    let pos : ℚ := q / 100 * ((n : ℚ) - 1)
    let i : ℕ := (⌊pos⌋ : ℤ).toNat
    let frac : ℚ := pos - (⌊pos⌋ : ℤ)
    if i + 1 < n then s.getD i 0 + frac * (s.getD (i + 1) 0 - s.getD i 0)
    else s.getD (n - 1) 0

/-- Column `j` of the `rng.choice(hist, size=(draws, horizon))` sample
matrix.  The random source is injectable: `samp i j` is the index drawn for
trial `i`, step `j` (reduced modulo the history length, a uniform draw over
the historical observations). -/
def sampleColumn (samp : ℕ → ℕ → ℕ) (hist : List ℚ) (draws j : ℕ) :
    List ℚ :=
  (List.range draws).map (fun i => hist.getD (samp i j % hist.length) 0)

/-- `mc_velocity_forecast` (forecast.py lines 13-45) on a precomputed
velocity history.  Empty history returns the zero-filled table for steps
`1..horizon` before `draws` is ever used (the source comment: "empty
history – return zeros to avoid crashes").  There is no validation of
`horizon` or `draws`; with a nonempty history, `draws < 1` makes numpy
reduce over an empty axis and `horizon < 0` is a negative dimension — both
numpy-level failures (no ComputationError exists in the code), modelled as
`none`.  Otherwise each step reports the mean and the 10/50/90 linear
percentiles of its sampled column. -/
def mc_velocity_forecast (samp : ℕ → ℕ → ℕ) (hist : List ℚ)
    (horizon draws : ℤ) : Option (List FRow) :=
  if hist = [] then
    some ((stepsList horizon).map (fun st => ⟨st, 0, 0, 0, 0⟩))
  else if draws < 1 ∨ horizon < 0 then none
  else
    some ((List.range horizon.toNat).map (fun j =>
      let col := sampleColumn samp hist draws.toNat j
      ⟨(j : ℤ) + 1, col.sum / (draws : ℚ),
        percentile 10 col, percentile 50 col, percentile 90 col⟩))

/-! ## Scenario adjuster (app/pages/02_Trends.py lines 411-416) -/

/-- Round-half-to-even on rationals (the tie policy of numpy `round`,
taken exactly rather than through binary floating point). -/
def roundHalfEven (x : ℚ) : ℤ :=
  let f := ⌊x⌋
  let r := x - f
  if r < 1 / 2 then f
  else if 1 / 2 < r then f + 1
  else if f % 2 = 0 then f else f + 1

/-- `.round(2)`: round to 2 decimal places. -/
def round2 (x : ℚ) : ℚ := (roundHalfEven (x * 100) : ℚ) / 100

/-- `eff_mult = capacity_mult / (1 + scope_growth / 100) /
(1 + defect_uplift / 100)`. -/
def eff_mult (capacity_mult scope_growth defect_uplift : ℚ) : ℚ :=
  capacity_mult / (1 + scope_growth / 100) / (1 + defect_uplift / 100)

/-- `fc_adj`: copy the base forecast and replace each of the mean, p10,
p50, p90 columns by its product with the effective multiplier, rounded to
2 decimals.  The step column is untouched. -/
def fc_adj (fc : List FRow) (capacity_mult scope_growth defect_uplift : ℚ) :
    List FRow :=
  let m := eff_mult capacity_mult scope_growth defect_uplift
  fc.map (fun r =>
    { r with
      mean := round2 (r.mean * m)
      p10 := round2 (r.p10 * m)
      p50 := round2 (r.p50 * m)
      p90 := round2 (r.p90 * m) })

/-! ## Store embedding for the no-mutation (frame) property

pandas frames are heap objects; `df.copy()` allocates a fresh one and
`df[col] = ...` mutates in place.  To make "the input is not mutated"
expressible, each function is re-stated over an explicit store (a list of
frames addressed by index): `stAlloc` models object creation (also every
pandas operation that returns a new frame), `stWrite` models in-place
column assignment.  Each `_st` function mirrors the heap behaviour of its
Python source and returns its result through the pure definition above. -/

def stRead [Inhabited τ] (σ : List τ) (i : ℕ) : τ := σ.getD i default

def stAlloc (σ : List τ) (t : τ) : List τ × ℕ := (σ ++ [t], σ.length)

def stWrite (σ : List τ) (i : ℕ) (t : τ) : List τ := σ.set i t

/-- `validate_and_normalize` with its heap behaviour: `out = df.copy()`
allocates (the fresh reference is the pre-allocation store length);
`_coerce_dates`, `_coerce_nums`, the casing assignments and
`_nan_to_none_for_optional` each mutate `out` in place; the input frame is
only read. -/
def validate_and_normalize_st (σ : List RawTable) (df : ℕ)
    (validate_rows : Bool) : List RawTable × Except SchemaError ℕ :=
  let out := σ.length
  let σ1 := (stAlloc σ (stRead σ df)).1
  let σ2 := stWrite σ1 out (coerceTable (stRead σ1 out))
  let problems := frameProblems (stRead σ2 out)
  if problems ≠ [] then (σ2, .error problems)
  else
    let σ3 := stWrite σ2 out (normalizeCaseTable (stRead σ2 out))
    let σ4 := stWrite σ3 out (noneifyTable (stRead σ3 out))
    if validate_rows then
      let errs := rowErrors (stRead σ4 out).cols 0 (stRead σ4 out).rows []
      if errs ≠ [] then (σ4, .error ("Row validation failed" :: errs))
      else (σ4, .ok out)
    else (σ4, .ok out)

/-- `calc_velocity` heap behaviour: `_resolved_within_sprint` copies the
input and filters (a fresh frame), `dropna` and the grouped sum are fresh
frames; nothing writes to an existing frame. -/
def calc_velocity_st (σ : List (List Row)) (df : ℕ) :
    List (List Row) × List (String × ℚ) :=
  let σ1 := (stAlloc σ (stRead σ df)).1
  let σ2 := (stAlloc σ1 ((stRead σ1 σ.length).filter qualifies)).1
  let σ3 := (stAlloc σ2 ((stRead σ2 σ1.length).filter
    (fun r => r.story_points.isSome))).1
  (σ3, calc_velocity (stRead σ df))

/-- `calc_throughput` heap behaviour. -/
def calc_throughput_st (σ : List (List Row)) (df : ℕ) :
    List (List Row) × List (String × ℕ) :=
  let σ1 := (stAlloc σ (stRead σ df)).1
  let σ2 := (stAlloc σ1 ((stRead σ1 σ.length).filter qualifies)).1
  (σ2, calc_throughput (stRead σ df))

/-- `calc_carryover_rate` heap behaviour: `dropna` and
`_unfinished_at_end` build fresh frames; the output frame is freshly
constructed and its column assignments hit only that fresh frame. -/
def calc_carryover_rate_st (σ : List (List Row)) (df : ℕ) :
    List (List Row) × List (String × ℚ) :=
  let σ1 := (stAlloc σ ((stRead σ df).filter
    (fun r => r.sprint_id.isSome))).1
  let σ2 := (stAlloc σ1 ((stRead σ df).filter unfinishedAtEnd)).1
  (σ2, calc_carryover_rate (stRead σ df))

/-- `calc_cycle_time` heap behaviour: `_parse_dates` copies, the
qualifying filter and `dropna` are fresh frames, and the
`d["cycle_days"] = ...` column assignment mutates the fresh `d` — never
the input. -/
def calc_cycle_time_st (σ : List (List Row)) (df : ℕ) :
    List (List Row) × List (String × ℚ) :=
  let σ1 := (stAlloc σ (parseDates (stRead σ df))).1
  let σ2 := (stAlloc σ1 (resolvedWithinSprint (stRead σ1 σ.length))).1
  let σ3 := (stAlloc σ2 ((stRead σ2 σ1.length).filter
    (fun r => r.created.isSome && r.resolved.isSome))).1
  let σ4 := stWrite σ3 σ2.length ((stRead σ3 σ2.length).map
    (fun r => { r with cycle_days :=
      match r.resolved, r.created with
      | some v, some c => some (((v - c : ℤ) : ℚ) / 86400)
      | _, _ => none }))
  (σ4, calc_cycle_time (stRead σ df))

/-- `calc_defect_ratio` heap behaviour. -/
def calc_defect_ratio_st (σ : List (List Row)) (df : ℕ) :
    List (List Row) × List (String × ℚ) :=
  let σ1 := (stAlloc σ (stRead σ df)).1
  let σ2 := (stAlloc σ1 ((stRead σ1 σ.length).filter qualifies)).1
  (σ2, calc_defect_ratio (stRead σ df))

/-! ## Shared lemmas -/

lemma sortedKeys_sorted (l : List String) :
    List.Sorted (· < ·) (sortedKeys l) := by
  have hs := List.sorted_insertionSort (· ≤ ·) l.dedup
  have hn : (List.insertionSort (· ≤ ·) l.dedup).Nodup :=
    (List.perm_insertionSort (· ≤ ·) l.dedup).symm.nodup (List.nodup_dedup l)
  exact (hs.and hn).imp (fun h => lt_of_le_of_ne h.1 h.2)

lemma sortedKeys_nodup (l : List String) : (sortedKeys l).Nodup :=
  (List.perm_insertionSort (· ≤ ·) l.dedup).symm.nodup (List.nodup_dedup l)

lemma mem_sortedKeys {s : String} {l : List String} :
    s ∈ sortedKeys l ↔ s ∈ l := by
  unfold sortedKeys
  rw [(List.perm_insertionSort (· ≤ ·) l.dedup).mem_iff, List.mem_dedup]

/-- The key column of a per-sprint table built by mapping over a roster. -/
lemma groupTable_fst {β : Type} (ks : List String) (v : String → β) :
    ((sortedKeys ks).map (fun s => (s, v s))).map Prod.fst = sortedKeys ks := by
  simp [List.map_map, Function.comp_def]

lemma sorted_groupTable {β : Type} (ks : List String) (v : String → β) :
    List.Sorted (· < ·)
      (((sortedKeys ks).map (fun s => (s, v s))).map Prod.fst) := by
  rw [groupTable_fst]; exact sortedKeys_sorted ks

lemma mem_groupTable_val {β : Type} {ks : List String} {v : String → β}
    {s : String} {q : β} (h : (s, q) ∈ (sortedKeys ks).map (fun s => (s, v s))) :
    q = v s := by
  rcases List.mem_map.mp h with ⟨a, _, heq⟩
  cases heq
  rfl

lemma mem_groupTable_key {β : Type} {ks : List String} {v : String → β}
    {s : String} :
    s ∈ ((sortedKeys ks).map (fun s => (s, v s))).map Prod.fst ↔ s ∈ ks := by
  rw [groupTable_fst, mem_sortedKeys]

/-- Merging two pandas masks applied one after the other. -/
lemma filter_filter_comm {α : Type} (p q : α → Bool) (l : List α) :
    (l.filter q).filter p = l.filter (fun a => q a && p a) := by
  rw [List.filter_filter]
  exact List.filter_congr (fun a _ => by cases p a <;> cases q a <;> rfl)

/-- Two masks that agree on rows with a present story_points give the same
summed points: `filterMap story_points` already drops the missing ones. -/
lemma filterMap_points_congr (l : List Row) (p q : Row → Bool)
    (h : ∀ r, r.story_points.isSome → p r = q r) :
    (l.filter p).filterMap (·.story_points) =
      (l.filter q).filterMap (·.story_points) := by
  induction l with
  | nil => rfl
  | cons r l ih =>
    cases hp : r.story_points with
    | none =>
      have : ∀ b : Row → Bool,
          ((r :: l).filter b).filterMap (·.story_points) =
            (l.filter b).filterMap (·.story_points) := by
        intro b
        cases hb : b r <;> simp [List.filter_cons, hb, List.filterMap_cons, hp]
      rw [this p, this q, ih]
    | some v =>
      have hpq : p r = q r := h r (by simp [hp])
      cases hb : q r <;>
        simp [List.filter_cons, hb, hpq ▸ hb, List.filterMap_cons, hp, ih]

lemma length_filter_mono {α : Type} {p q : α → Bool} (l : List α)
    (h : ∀ a, p a = true → q a = true) :
    (l.filter p).length ≤ (l.filter q).length := by
  rw [← List.countP_eq_length_filter, ← List.countP_eq_length_filter]
  exact List.countP_mono_left (fun a _ => h a)

/-! ## Claim theorems -/

/-- C10: for every canonical dataset, each of the five KPI functions
returns its rows sorted in strictly ascending lexical order of sprint_id,
whatever the input row order and sprint_start dates. -/
theorem C10_sorted_by_sprint (t : List Row) :
    List.Sorted (· < ·) ((calc_velocity t).map Prod.fst) ∧
    List.Sorted (· < ·) ((calc_throughput t).map Prod.fst) ∧
    List.Sorted (· < ·) ((calc_carryover_rate t).map Prod.fst) ∧
    List.Sorted (· < ·) ((calc_cycle_time t).map Prod.fst) ∧
    List.Sorted (· < ·) ((calc_defect_ratio t).map Prod.fst) :=
  ⟨sorted_groupTable _ _, sorted_groupTable _ _, sorted_groupTable _ _,
   sorted_groupTable _ _, sorted_groupTable _ _⟩

/-- C5: every velocity row carries the sum of story_points over the
sprint's qualifying rows (rows with missing story_points excluded by
`filterMap`, not treated as zero), and a sprint appears in the table
exactly when it has a qualifying row with a story_points value. -/
theorem C5_velocity_sum (t : List Row) :
    (∀ s v, (s, v) ∈ calc_velocity t →
      v = ((t.filter (fun r => qualifies r && r.sprint_id == some s)).filterMap
        (·.story_points)).sum) ∧
    (∀ s, s ∈ (calc_velocity t).map Prod.fst ↔
      ∃ r ∈ t, qualifies r = true ∧ r.story_points.isSome = true ∧
        r.sprint_id = some s) := by
  constructor
  · intro s v hv
    have hval := mem_groupTable_val hv
    rw [hval]
    show ((((t.filter qualifies).filter (fun r => r.story_points.isSome)).filter
      (fun r => r.sprint_id == some s)).filterMap (·.story_points)).sum = _
    rw [filter_filter_comm, filter_filter_comm,
      filterMap_points_congr _ _ (fun r => qualifies r && r.sprint_id == some s)
        (fun (r : Row) hr => by
          cases hq : qualifies r <;> cases hs : (r.sprint_id == some s) <;>
            simp [hr, hq, hs])]
  · intro s
    simp only [calc_velocity, resolvedWithinSprint]
    rw [mem_groupTable_key, List.mem_filterMap]
    constructor
    · rintro ⟨r, hr, hid⟩
      rcases List.mem_filter.mp hr with ⟨hr1, hpts⟩
      rcases List.mem_filter.mp hr1 with ⟨hrt, hq⟩
      exact ⟨r, hrt, hq, hpts, hid⟩
    · rintro ⟨r, hrt, hq, hpts, hid⟩
      exact ⟨r, List.mem_filter.mpr ⟨List.mem_filter.mpr ⟨hrt, hq⟩, hpts⟩, hid⟩

/-- Spec-side definition, following the claim's words: the number of
distinct issues — counted by distinct issue identifier, not by row — among
the qualifying rows of the sprint. -/
def spec_distinct_throughput (t : List Row) (s : String) : ℕ :=
  ((((resolvedWithinSprint t).filter (fun r => r.sprint_id == some s)).filterMap
    (·.issue_id)).dedup).length

/-- A qualifying row, duplicated: same issue identifier on both rows. -/
def dupRow : Row :=
  { issue_id := some "A", issue_type := some "story", status := some "Done",
    story_points := some 3, created := some 0, resolved := some 5,
    sprint_id := some "S1", sprint_start := some 0, sprint_end := some 10 }

/-- The dataset refuting C1 as stated: two qualifying rows with the same
issue identifier. -/
def exDup : List Row := [dupRow, dupRow]

/-- C1 counterexample: `calc_throughput` counts rows (pandas `count`), so
the duplicated identifier is counted twice, while the distinct-identifier
count of the claim is 1. -/
theorem C1_counterexample :
    calc_throughput exDup = [("S1", 2)] ∧
    spec_distinct_throughput exDup "S1" = 1 := by decide

/-- C1 amended: every throughput row carries the number of qualifying rows
of the sprint whose issue_id is present — rows, not distinct identifiers —
and the value is nonnegative; a sprint appears exactly when it has a
qualifying row. -/
theorem C1_throughput_rows (t : List Row) :
    (∀ s n, (s, n) ∈ calc_throughput t →
      n = (t.filter (fun r => qualifies r && r.sprint_id == some s &&
        r.issue_id.isSome)).length ∧ 0 ≤ n) ∧
    (∀ s, s ∈ (calc_throughput t).map Prod.fst ↔
      ∃ r ∈ t, qualifies r = true ∧ r.sprint_id = some s) := by
  constructor
  · intro s n hn
    refine ⟨?_, Nat.zero_le n⟩
    have hval := mem_groupTable_val hn
    rw [hval]
    show ((t.filter qualifies).filter
      (fun r => r.sprint_id == some s && r.issue_id.isSome)).length = _
    rw [filter_filter_comm,
      List.filter_congr (q := fun r => qualifies r && r.sprint_id == some s &&
        r.issue_id.isSome) (fun (r : Row) _ => by
          cases hq : qualifies r <;> cases hs : (r.sprint_id == some s) <;>
            cases hi : r.issue_id.isSome <;> simp [hq, hs, hi])]
  · intro s
    simp only [calc_throughput, resolvedWithinSprint]
    rw [mem_groupTable_key, List.mem_filterMap]
    constructor
    · rintro ⟨r, hr, hid⟩
      rcases List.mem_filter.mp hr with ⟨hrt, hq⟩
      exact ⟨r, hrt, hq, hid⟩
    · rintro ⟨r, hrt, hq, hid⟩
      exact ⟨r, List.mem_filter.mpr ⟨hrt, hq⟩, hid⟩

/-- A qualifying single-story table used to instantiate the per-sprint
theorems at a concrete input. -/
def wRow : Row :=
  { issue_id := some "W-1", issue_type := some "story", status := some "Done",
    story_points := some 3, created := some 0, resolved := some 5,
    sprint_id := some "S1", sprint_start := some 0, sprint_end := some 10 }

/-- Concrete witness table. -/
def exW : List Row := [wRow]

theorem C5_velocity_sum_witness :
    (3 : ℚ) = ((exW.filter (fun r => qualifies r && r.sprint_id == some "S1")).filterMap
      (·.story_points)).sum :=
  (C5_velocity_sum exW).1 "S1" 3 (by with_unfolding_all decide)

theorem C1_throughput_rows_witness :
    2 = (exDup.filter (fun r => qualifies r && r.sprint_id == some "S1" &&
      r.issue_id.isSome)).length ∧ 0 ≤ 2 :=
  (C1_throughput_rows exDup).1 "S1" 2 (by decide)

/-- Spec-side definition, following the claim's words: issue_type matches a
bug/defect token by case-insensitive substring match against a small
vocabulary (the claim names 'defect' and 'bug fix' as matches). -/
def spec_is_defect (ty : String) : Bool :=
  decide ("bug".data <:+: ty.toLower.data) ||
  decide ("defect".data <:+: ty.toLower.data)

/-- A qualifying row whose issue_type is 'defect'. -/
def defectRow : Row :=
  { issue_id := some "D-1", issue_type := some "defect",
    status := some "Done", story_points := some 2, created := some 0,
    resolved := some 5, sprint_id := some "S1", sprint_start := some 0,
    sprint_end := some 10 }

/-- A sprint-S2 row that does not qualify (never resolved). -/
def unresolvedRow : Row :=
  { issue_id := some "X-1", issue_type := some "story",
    status := some "To Do", story_points := some 1, created := some 0,
    resolved := none, sprint_id := some "S2", sprint_start := some 0,
    sprint_end := some 10 }

/-- The dataset refuting C3 as stated. -/
def exDefect : List Row := [defectRow, unresolvedRow]

/-- C3 counterexample: the code tests `issue_type.lower() == "bug"` exactly,
so the qualifying 'defect' row is not counted (ratio 0, the claim expects
1), and sprint S2, which has rows but no qualifying one, is omitted from
the table instead of getting ratio 0. -/
theorem C3_counterexample :
    calc_defect_ratio exDefect = [("S1", 0)] ∧
    spec_is_defect "defect" = true ∧
    (∃ r ∈ exDefect, r.sprint_id = some "S2") := by
  with_unfolding_all decide

/-- C3 amended: among the (non-null issue_id) qualifying rows of a sprint,
the ratio is the share whose lowercased issue_type equals exactly "bug"
(no substring vocabulary), it lies in [0, 1], and a sprint appears in the
table only when it has a qualifying row (sprints without one are omitted
rather than reported as 0). -/
theorem C3_defect_ratio (t : List Row) :
    (∀ s q, (s, q) ∈ calc_defect_ratio t →
      0 ≤ q ∧ q ≤ 1 ∧
      q = (if (t.filter (fun r => qualifies r && r.sprint_id == some s &&
            r.issue_id.isSome)).length = 0 then 0
          else ((t.filter (fun r => qualifies r && r.sprint_id == some s &&
            r.issue_id.isSome && isBugRow r)).length : ℚ) /
            ((t.filter (fun r => qualifies r && r.sprint_id == some s &&
              r.issue_id.isSome)).length : ℚ))) ∧
    (∀ s, s ∈ (calc_defect_ratio t).map Prod.fst ↔
      ∃ r ∈ t, qualifies r = true ∧ r.sprint_id = some s) := by
  constructor
  · intro s q hq
    have htot : ((t.filter qualifies).filter
        (fun r => r.sprint_id == some s && r.issue_id.isSome)).length =
        (t.filter (fun r => qualifies r && r.sprint_id == some s &&
          r.issue_id.isSome)).length := by
      rw [filter_filter_comm]
      exact congrArg List.length (List.filter_congr (fun (r : Row) _ => by
        cases hq1 : qualifies r <;> cases hs1 : (r.sprint_id == some s) <;>
          cases hi1 : r.issue_id.isSome <;> simp [hq1, hs1, hi1]))
    have hbug : ((t.filter qualifies).filter
        (fun r => r.sprint_id == some s && r.issue_id.isSome &&
          isBugRow r)).length =
        (t.filter (fun r => qualifies r && r.sprint_id == some s &&
          r.issue_id.isSome && isBugRow r)).length := by
      rw [filter_filter_comm]
      exact congrArg List.length (List.filter_congr (fun (r : Row) _ => by
        cases hq1 : qualifies r <;> cases hs1 : (r.sprint_id == some s) <;>
          cases hi1 : r.issue_id.isSome <;> cases hb1 : isBugRow r <;>
            simp [hq1, hs1, hi1, hb1]))
    have hval := mem_groupTable_val hq
    simp only [resolvedWithinSprint] at hval
    rw [htot, hbug] at hval
    have hle : (t.filter (fun r => qualifies r && r.sprint_id == some s &&
        r.issue_id.isSome && isBugRow r)).length ≤
        (t.filter (fun r => qualifies r && r.sprint_id == some s &&
          r.issue_id.isSome)).length := by
      refine length_filter_mono t (fun r h => ?_)
      cases hq1 : qualifies r <;> cases hs1 : (r.sprint_id == some s) <;>
        cases hi1 : r.issue_id.isSome <;> simp_all
    refine ⟨?_, ?_, hval⟩
    · rw [hval]
      split
      · exact le_refl 0
      · positivity
    · rw [hval]
      split
      · exact zero_le_one
      · rename _ => hne
        rw [div_le_one (by
          have : 0 < (t.filter (fun r => qualifies r &&
              r.sprint_id == some s && r.issue_id.isSome)).length :=
            Nat.pos_of_ne_zero hne
          exact_mod_cast this)]
        exact_mod_cast hle
  · intro s
    simp only [calc_defect_ratio, resolvedWithinSprint]
    rw [mem_groupTable_key, List.mem_filterMap]
    constructor
    · rintro ⟨r, hr, hid⟩
      rcases List.mem_filter.mp hr with ⟨hrt, hq⟩
      exact ⟨r, hrt, hq, hid⟩
    · rintro ⟨r, hrt, hq, hid⟩
      exact ⟨r, List.mem_filter.mpr ⟨hrt, hq⟩, hid⟩

theorem C3_defect_ratio_witness :
    0 ≤ (0 : ℚ) ∧ (0 : ℚ) ≤ 1 ∧
    (0 : ℚ) = (if (exDefect.filter (fun r => qualifies r &&
        r.sprint_id == some "S1" && r.issue_id.isSome)).length = 0 then 0
      else ((exDefect.filter (fun r => qualifies r &&
        r.sprint_id == some "S1" && r.issue_id.isSome &&
          isBugRow r)).length : ℚ) /
        ((exDefect.filter (fun r => qualifies r && r.sprint_id == some "S1" &&
          r.issue_id.isSome)).length : ℚ)) :=
  (C3_defect_ratio exDefect).1 "S1" 0 (by with_unfolding_all decide)

/-- Nodup companion to `sorted_groupTable`. -/
lemma nodup_groupTable {β : Type} (ks : List String) (v : String → β) :
    (((sortedKeys ks).map (fun s => (s, v s))).map Prod.fst).Nodup := by
  rw [groupTable_fst]; exact sortedKeys_nodup ks

/-- C4: the carryover table has exactly one row for every sprint_id
appearing in the data, every rate lies in [0, 1], and a sprint whose
denominator (count of its non-null issue_id rows) is zero gets rate 0. -/
theorem C4_carryover (t : List Row) :
    (∀ s, s ∈ (calc_carryover_rate t).map Prod.fst ↔
      ∃ r ∈ t, r.sprint_id = some s) ∧
    ((calc_carryover_rate t).map Prod.fst).Nodup ∧
    (∀ s q, (s, q) ∈ calc_carryover_rate t →
      0 ≤ q ∧ q ≤ 1 ∧
      ((t.filter (fun r => r.sprint_id == some s &&
        r.issue_id.isSome)).length = 0 → q = 0)) := by
  refine ⟨?_, nodup_groupTable _ _, ?_⟩
  · intro s
    simp only [calc_carryover_rate]
    rw [mem_groupTable_key, List.mem_filterMap]
  · intro s q hq
    have hval := mem_groupTable_val hq
    have hle : (t.filter (fun r => r.sprint_id == some s &&
        r.issue_id.isSome && unfinishedAtEnd r)).length ≤
        (t.filter (fun r => r.sprint_id == some s &&
          r.issue_id.isSome)).length := by
      refine length_filter_mono t (fun r h => ?_)
      cases hs1 : (r.sprint_id == some s) <;> cases hi1 : r.issue_id.isSome <;>
        simp_all
    refine ⟨?_, ?_, ?_⟩
    · rw [hval]
      split
      · exact le_refl 0
      · positivity
    · rw [hval]
      split
      · exact zero_le_one
      · rename _ => hne
        rw [div_le_one (by
          have : 0 < (t.filter (fun r => r.sprint_id == some s &&
              r.issue_id.isSome)).length := Nat.pos_of_ne_zero hne
          exact_mod_cast this)]
        exact_mod_cast hle
    · intro hzero
      rw [hval, if_pos hzero]

theorem C4_carryover_witness :
    0 ≤ (0 : ℚ) ∧ (0 : ℚ) ≤ 1 ∧
    ((exW.filter (fun r => r.sprint_id == some "S1" &&
      r.issue_id.isSome)).length = 0 → (0 : ℚ) = 0) :=
  (C4_carryover exW).2.2 "S1" 0 (by with_unfolding_all decide)

lemma stepsList_length (h : ℤ) : (stepsList h).length = h.toNat := by
  unfold stepsList
  rw [List.length_map, List.length_range]

/-- C6: with empty velocity history, `mc_velocity_forecast` returns (for
every horizon and draws) the table with columns step, mean, p10, p50, p90
holding one all-zero row per requested step 1..horizon — the all-zero
branch of the disjunction the claim allows (and the empty table when
horizon < 1 requests no steps). -/
theorem C6_empty_history (samp : ℕ → ℕ → ℕ) (horizon draws : ℤ) :
    ∃ rows, mc_velocity_forecast samp [] horizon draws = some rows ∧
      rows = (stepsList horizon).map (fun st => ⟨st, 0, 0, 0, 0⟩) ∧
      rows.length = horizon.toNat ∧
      ∀ r ∈ rows, r.mean = 0 ∧ r.p10 = 0 ∧ r.p50 = 0 ∧ r.p90 = 0 := by
  refine ⟨(stepsList horizon).map (fun st => ⟨st, 0, 0, 0, 0⟩), ?_, rfl, ?_, ?_⟩
  · simp [mc_velocity_forecast]
  · rw [List.length_map, stepsList_length]
  · intro r hr
    rcases List.mem_map.mp hr with ⟨j, _, rfl⟩
    exact ⟨rfl, rfl, rfl, rfl⟩

/-- C2 counterexample: at horizon = 0 (violating `horizon >= 1`) the
forecaster returns a result table (an empty one) instead of raising any
configuration error — no validation of horizon or draws exists in the
code. -/
theorem C2_counterexample :
    mc_velocity_forecast (fun _ _ => 0) [3, 5] 0 8000 = some [] ∧
      (0 : ℤ) < 1 := by
  constructor
  · rw [mc_velocity_forecast, if_neg (by simp), if_neg (by omega)]
    simp
  · omega

/-- C2 amended: `mc_velocity_forecast` never fails fast on invalid
configuration: horizon = 0 (with any draws >= 1) yields an empty result
table, and the empty-history branch returns its zero-filled table for any
horizon and any draws — including draws < 1 — because the branch runs
before draws is used. -/
theorem C2_no_failfast :
    (∀ (samp : ℕ → ℕ → ℕ) (hist : List ℚ) (draws : ℤ), 1 ≤ draws →
      mc_velocity_forecast samp hist 0 draws = some []) ∧
    (∀ (samp : ℕ → ℕ → ℕ) (horizon draws : ℤ),
      mc_velocity_forecast samp [] horizon draws =
        some ((stepsList horizon).map (fun st => ⟨st, 0, 0, 0, 0⟩))) := by
  constructor
  · intro samp hist draws hd
    by_cases h : hist = []
    · subst h
      simp [mc_velocity_forecast, stepsList]
    · rw [mc_velocity_forecast, if_neg h, if_neg (by omega)]
      simp
  · intro samp horizon draws
    simp [mc_velocity_forecast]

theorem C2_no_failfast_witness :
    mc_velocity_forecast (fun _ _ => 1) [2, 4, 6] 0 5000 = some [] :=
  C2_no_failfast.1 (fun _ _ => 1) [2, 4, 6] 5000 (by omega)

/-- Rounding to two decimals is the identity on values that already have
(at most) two decimals. -/
lemma round2_fix (x : ℚ) (h : (x * 100).den = 1) : round2 x = x := by
  have hfloor : (⌊x * 100⌋ : ℚ) = x * 100 := by
    rw [← (Rat.den_eq_one_iff (x * 100)).mp h, Int.floor_intCast]
  have hre : roundHalfEven (x * 100) = ⌊x * 100⌋ := by
    unfold roundHalfEven
    rw [if_pos]
    rw [hfloor]
    norm_num
  rw [round2, hre, hfloor]
  field_simp

/-- C7: the effective multiplier at capacity 1.0, scope growth 0 and
defect uplift 0 is 1; the adjustment at those parameters is exactly
per-cell rounding to 2 decimals (identity up to rounding), and is the
exact identity on tables whose band values already have two decimals.  The
multiplier is applied uniformly to mean, p10, p50, p90 (the definition of
`fc_adj`). -/
theorem C7_scenario_identity :
    eff_mult 1 0 0 = 1 ∧
    (∀ fc : List FRow, fc_adj fc 1 0 0 = fc.map (fun r =>
      { r with
        mean := round2 r.mean
        p10 := round2 r.p10
        p50 := round2 r.p50
        p90 := round2 r.p90 })) ∧
    (∀ fc : List FRow, (∀ r ∈ fc, (r.mean * 100).den = 1 ∧
        (r.p10 * 100).den = 1 ∧ (r.p50 * 100).den = 1 ∧
        (r.p90 * 100).den = 1) →
      fc_adj fc 1 0 0 = fc) := by
  have hm : eff_mult 1 0 0 = 1 := by
    unfold eff_mult
    norm_num
  have hmap : ∀ fc : List FRow, fc_adj fc 1 0 0 = fc.map (fun r =>
      { r with
        mean := round2 r.mean
        p10 := round2 r.p10
        p50 := round2 r.p50
        p90 := round2 r.p90 }) := by
    intro fc
    unfold fc_adj
    rw [hm]
    simp [mul_one]
  refine ⟨hm, hmap, ?_⟩
  intro fc h
  rw [hmap]
  have : ∀ r ∈ fc, (fun r : FRow =>
      { r with
        mean := round2 r.mean
        p10 := round2 r.p10
        p50 := round2 r.p50
        p90 := round2 r.p90 }) r = (fun r => r) r := by
    intro r hr
    obtain ⟨h1, h2, h3, h4⟩ := h r hr
    simp [round2_fix _ h1, round2_fix _ h2, round2_fix _ h3, round2_fix _ h4]
  rw [List.map_congr_left this]
  simp

/-- A forecast table whose values all have two decimals. -/
def fcW : List FRow := [⟨1, 5 / 2, 5 / 4, 5 / 2, 15 / 4⟩]

theorem C7_scenario_identity_witness : fc_adj fcW 1 0 0 = fcW :=
  C7_scenario_identity.2.2 fcW (by with_unfolding_all decide)

theorem C6_empty_history_witness :
    mc_velocity_forecast (fun _ _ => 0) [] 2 5 =
      some ((stepsList 2).map (fun st => ⟨st, 0, 0, 0, 0⟩)) :=
  ((C6_empty_history (fun _ _ => 0) 2 5).choose_spec.1).trans
    (congrArg some (C6_empty_history (fun _ _ => 0) 2 5).choose_spec.2.1)

/-! ## C8: row-validation round trip -/

/-- Input class of the second half of C8: every required field of the
`Issue` contract is valid (identifiers are strings, the three required
dates are timestamps) and every optional field is absent. -/
def requiredValidOptionalAbsent (r : RawRow) : Bool :=
  (match r.issue_id with | .strV _ => true | _ => false) &&
  (match r.issue_type with | .strV _ => true | _ => false) &&
  (match r.status with | .strV _ => true | _ => false) &&
  (match r.created with | .timeV _ => true | _ => false) &&
  (match r.sprint_id with | .strV _ => true | _ => false) &&
  (match r.sprint_start with | .timeV _ => true | _ => false) &&
  (match r.sprint_end with | .timeV _ => true | _ => false) &&
  (r.story_points == .missing) && (r.updated == .missing) &&
  (r.resolved == .missing) && (r.assignee == .missing) &&
  (r.reporter == .missing) && (r.sprint_name == .missing) &&
  (r.parent_id == .missing) && (r.labels == .missing) &&
  (r.priority == .missing)

lemma rowErrors_ne_nil (cols : List String) :
    ∀ (rows : List RawRow) (idx : ℕ) (errs : List String), errs ≠ [] →
      rowErrors cols idx rows errs ≠ [] := by
  intro rows
  induction rows with
  | nil => intro idx errs h; simpa [rowErrors] using h
  | cons r rs ih =>
    intro idx errs h
    by_cases hok : issueOk cols r = true
    · simpa [rowErrors, hok] using ih (idx + 1) errs h
    · simp only [rowErrors, hok, if_neg, Bool.false_eq_true, if_false]
      split
      · simp
      · exact ih (idx + 1) _ (by simp)

lemma rowErrors_ok_nil (cols : List String) :
    ∀ (rows : List RawRow) (idx : ℕ),
      (∀ r ∈ rows, issueOk cols r = true) →
      rowErrors cols idx rows [] = [] := by
  intro rows
  induction rows with
  | nil => intro idx _; rfl
  | cons r rs ih =>
    intro idx h
    have hok := h r (List.mem_cons_self r rs)
    simpa [rowErrors, hok] using
      ih (idx + 1) (fun x hx => h x (List.mem_cons_of_mem r hx))

lemma rowErrors_nil_all_ok (cols : List String) :
    ∀ (rows : List RawRow) (idx : ℕ),
      rowErrors cols idx rows [] = [] →
      ∀ r ∈ rows, issueOk cols r = true := by
  intro rows
  induction rows with
  | nil => intro idx _ r hr; cases hr
  | cons r rs ih =>
    intro idx h x hx
    by_cases hok : issueOk cols r = true
    · rw [List.mem_cons] at hx
      rcases hx with rfl | hx
      · exact hok
      · refine ih (idx + 1) ?_ x hx
        simpa [rowErrors, hok] using h
    · exfalso
      simp only [rowErrors, hok, Bool.false_eq_true, if_false] at h
      revert h
      split
      · simp
      · exact rowErrors_ne_nil cols rs (idx + 1) _ (by simp)

lemma rvoa_shapes (r : RawRow) (h : requiredValidOptionalAbsent r = true) :
    (∃ s, r.issue_id = .strV s) ∧ (∃ s, r.issue_type = .strV s) ∧
    (∃ s, r.status = .strV s) ∧ (∃ t, r.created = .timeV t) ∧
    (∃ s, r.sprint_id = .strV s) ∧ (∃ t, r.sprint_start = .timeV t) ∧
    (∃ t, r.sprint_end = .timeV t) ∧ r.story_points = .missing ∧
    r.updated = .missing ∧ r.resolved = .missing ∧ r.assignee = .missing ∧
    r.reporter = .missing ∧ r.sprint_name = .missing ∧
    r.parent_id = .missing ∧ r.labels = .missing ∧ r.priority = .missing := by
  simp only [requiredValidOptionalAbsent, Bool.and_eq_true, beq_iff_eq,
    and_assoc] at h
  obtain ⟨h1, h2, h3, h4, h5, h6, h7, h8, h9, h10, h11, h12, h13, h14, h15,
    h16⟩ := h
  refine ⟨?_, ?_, ?_, ?_, ?_, ?_, ?_, h8, h9, h10, h11, h12, h13, h14, h15,
    h16⟩
  · cases hc : r.issue_id <;> simp [hc] at h1 ⊢
  · cases hc : r.issue_type <;> simp [hc] at h2 ⊢
  · cases hc : r.status <;> simp [hc] at h3 ⊢
  · cases hc : r.created <;> simp [hc] at h4 ⊢
  · cases hc : r.sprint_id <;> simp [hc] at h5 ⊢
  · cases hc : r.sprint_start <;> simp [hc] at h6 ⊢
  · cases hc : r.sprint_end <;> simp [hc] at h7 ⊢

/-- On a row of the C8 input class, the normalizer's per-row pipeline
(coercions, casing, NaN-to-None) yields a row that passes the `Issue`
contract and carries the explicit no-value marker on every optional
field. -/
lemma row_pipeline_props (r : RawRow)
    (h : requiredValidOptionalAbsent r = true) :
    issueOk CSV_HEADERS (nan_to_none_for_optional CSV_HEADERS
      (normalizeCase CSV_HEADERS (coerce_nums CSV_HEADERS
        (coerce_dates CSV_HEADERS r)))) = true ∧
    ((nan_to_none_for_optional CSV_HEADERS (normalizeCase CSV_HEADERS
      (coerce_nums CSV_HEADERS (coerce_dates CSV_HEADERS r)))).story_points
        = .missing ∧
     (nan_to_none_for_optional CSV_HEADERS (normalizeCase CSV_HEADERS
      (coerce_nums CSV_HEADERS (coerce_dates CSV_HEADERS r)))).updated
        = .missing ∧
     (nan_to_none_for_optional CSV_HEADERS (normalizeCase CSV_HEADERS
      (coerce_nums CSV_HEADERS (coerce_dates CSV_HEADERS r)))).resolved
        = .missing ∧
     (nan_to_none_for_optional CSV_HEADERS (normalizeCase CSV_HEADERS
      (coerce_nums CSV_HEADERS (coerce_dates CSV_HEADERS r)))).assignee
        = .missing ∧
     (nan_to_none_for_optional CSV_HEADERS (normalizeCase CSV_HEADERS
      (coerce_nums CSV_HEADERS (coerce_dates CSV_HEADERS r)))).reporter
        = .missing ∧
     (nan_to_none_for_optional CSV_HEADERS (normalizeCase CSV_HEADERS
      (coerce_nums CSV_HEADERS (coerce_dates CSV_HEADERS r)))).sprint_name
        = .missing ∧
     (nan_to_none_for_optional CSV_HEADERS (normalizeCase CSV_HEADERS
      (coerce_nums CSV_HEADERS (coerce_dates CSV_HEADERS r)))).parent_id
        = .missing ∧
     (nan_to_none_for_optional CSV_HEADERS (normalizeCase CSV_HEADERS
      (coerce_nums CSV_HEADERS (coerce_dates CSV_HEADERS r)))).labels
        = .missing ∧
     (nan_to_none_for_optional CSV_HEADERS (normalizeCase CSV_HEADERS
      (coerce_nums CSV_HEADERS (coerce_dates CSV_HEADERS r)))).priority
        = .missing) := by
  obtain ⟨⟨s1, e1⟩, ⟨s2, e2⟩, ⟨s3, e3⟩, ⟨t1, e4⟩, ⟨s4, e5⟩, ⟨t2, e6⟩,
    ⟨t3, e7⟩, h8, h9, h10, h11, h12, h13, h14, h15, h16⟩ := rvoa_shapes r h
  constructor <;>
    simp [coerce_dates, coerce_nums, normalizeCase, nan_to_none_for_optional,
      issueOk, okRequiredStr, okRequiredDate, okOptionalDate, okOptionalStr,
      okPoints, dcoerce, ncoerce, strCast, lowerCast, titleCast, noneify,
      isna, CSV_HEADERS, e1, e2, e3, e4, e5, e6, e7, h8, h9, h10, h11, h12,
      h13, h14, h15, h16]

/-- C8: (a) any input containing a row with story_points = -1 makes
`validate_and_normalize` (row validation enabled) fail with a SchemaError;
(b) an input with all required fields valid and every optional field
absent normalizes successfully, with every optional value carried as the
explicit no-value marker, which is distinct from the empty string. -/
theorem C8_row_validation :
    (∀ df : RawTable, (∃ r ∈ df.rows, r.story_points = .numV (-1)) →
      ∃ e : SchemaError, validate_and_normalize df true = .error e) ∧
    (∀ df : RawTable, df.cols = CSV_HEADERS →
      (∀ r ∈ df.rows, requiredValidOptionalAbsent r = true) →
      ∃ out, validate_and_normalize df true = .ok out ∧
        (∀ r ∈ out.rows, r.story_points = .missing ∧ r.updated = .missing ∧
          r.resolved = .missing ∧ r.assignee = .missing ∧
          r.reporter = .missing ∧ r.sprint_name = .missing ∧
          r.parent_id = .missing ∧ r.labels = .missing ∧
          r.priority = .missing) ∧
        RawCell.missing ≠ RawCell.strV "") := by
  constructor
  · intro df hex
    simp only [validate_and_normalize]
    split
    · exact ⟨_, rfl⟩
    · next hprob =>
      rw [if_pos trivial]
      split
      · exact ⟨_, rfl⟩
      · next herr =>
        exfalso
        have hp : frameProblems (coerceTable df) = [] := not_ne_iff.mp hprob
        have he : rowErrors
            (noneifyTable (normalizeCaseTable (coerceTable df))).cols 0
            (noneifyTable (normalizeCaseTable (coerceTable df))).rows []
              = [] := not_ne_iff.mp herr
        -- "story_points" is among the columns, else the missing-column
        -- problem would be nonempty
        have hcq : (coerceTable df).cols = df.cols := rfl
        have hcq3 : (noneifyTable (normalizeCaseTable
          (coerceTable df))).cols = df.cols := rfl
        have hmc : REQUIRED_COLS.filter
            (fun c => !(df.cols.contains c)) = [] := by
          by_contra hne
          rw [frameProblems] at hp
          simp only [hcq] at hp
          rw [if_pos hne] at hp
          simp at hp
        have hsp : df.cols.contains "story_points" = true := by
          have := List.filter_eq_nil_iff.mp hmc "story_points" (by decide)
          simpa using this
        obtain ⟨r, hr, hpts⟩ := hex
        have hmem : nan_to_none_for_optional df.cols (normalizeCase df.cols
            (coerce_nums df.cols (coerce_dates df.cols r))) ∈
            (noneifyTable (normalizeCaseTable (coerceTable df))).rows :=
          List.mem_map_of_mem _ (List.mem_map_of_mem _
            (List.mem_map_of_mem _ hr))
        have hok := rowErrors_nil_all_ok _ _ _ he _ hmem
        have hpt2 : (nan_to_none_for_optional df.cols (normalizeCase df.cols
            (coerce_nums df.cols (coerce_dates df.cols r)))).story_points =
            .numV (-1) := by
          simp [nan_to_none_for_optional, normalizeCase, coerce_nums,
            coerce_dates, ncoerce, noneify, isna, hpts]
        simp only [issueOk, Bool.and_eq_true, and_assoc] at hok
        have hcontra := hok.2.2.2.1
        rw [hcq3] at hcontra
        rw [hpt2, hsp] at hcontra
        have : ((0 : ℚ) ≤ -1) := by simpa [okPoints] using hcontra
        norm_num at this
  · intro df hcols hrows
    have hfilter : REQUIRED_COLS.filter
        (fun c => !(CSV_HEADERS.contains c)) = [] := by decide
    have hP : frameProblems (coerceTable df) = [] := by
      have hany : ∀ (sel : RawRow → RawCell),
          (∀ r ∈ df.rows, isna (sel (coerce_nums CSV_HEADERS
            (coerce_dates CSV_HEADERS r))) = false) →
          ((df.rows.map (fun r => coerce_nums df.cols
            (coerce_dates df.cols r))).any (fun r => isna (sel r))) =
              false := by
        intro sel hall
        rw [List.any_eq_false]
        intro x hx
        obtain ⟨r, hr, rfl⟩ := List.mem_map.mp hx
        rw [hcols]
        simp [hall r hr]
      have h1 := hany (·.issue_id) (fun r hr => by
        obtain ⟨⟨s, hs⟩, -⟩ := rvoa_shapes r (hrows r hr)
        simp [coerce_nums, coerce_dates, isna, hs])
      have h2 := hany (·.sprint_id) (fun r hr => by
        obtain ⟨-, -, -, -, ⟨s, hs⟩, -⟩ := rvoa_shapes r (hrows r hr)
        simp [coerce_nums, coerce_dates, isna, hs])
      have h3 := hany (·.status) (fun r hr => by
        obtain ⟨-, -, ⟨s, hs⟩, -⟩ := rvoa_shapes r (hrows r hr)
        simp [coerce_nums, coerce_dates, isna, hs])
      simp only [frameProblems, coerceTable, hcols] at h1 h2 h3 ⊢
      simp [hfilter, h1, h2, h3]
      decide
    have hE : rowErrors
        (noneifyTable (normalizeCaseTable (coerceTable df))).cols 0
        (noneifyTable (normalizeCaseTable (coerceTable df))).rows [] = [] := by
      apply rowErrors_ok_nil
      intro x hx
      simp only [noneifyTable, normalizeCaseTable, coerceTable] at hx ⊢
      obtain ⟨y, hy, rfl⟩ := List.mem_map.mp hx
      obtain ⟨z, hz, rfl⟩ := List.mem_map.mp hy
      obtain ⟨r, hr, rfl⟩ := List.mem_map.mp hz
      rw [hcols]
      exact (row_pipeline_props r (hrows r hr)).1
    refine ⟨noneifyTable (normalizeCaseTable (coerceTable df)), ?_, ?_,
      by simp⟩
    · simp only [validate_and_normalize]
      rw [if_neg (not_ne_iff.mpr hP), if_pos trivial, if_neg (not_ne_iff.mpr hE)]
    · intro x hx
      simp only [noneifyTable, normalizeCaseTable, coerceTable] at hx
      obtain ⟨y, hy, rfl⟩ := List.mem_map.mp hx
      obtain ⟨z, hz, rfl⟩ := List.mem_map.mp hy
      obtain ⟨r, hr, rfl⟩ := List.mem_map.mp hz
      have := (row_pipeline_props r (hrows r hr)).2
      rw [hcols]
      exact this

/-- A raw row valid on required fields, with story_points = -1. -/
def negRow : RawRow :=
  { issue_id := .strV "A-1", issue_type := .strV "story",
    status := .strV "Done", story_points := .numV (-1),
    created := .timeV 100, sprint_id := .strV "S1",
    sprint_start := .timeV 100, sprint_end := .timeV 200 }

/-- A raw row with required fields valid and all optional fields absent. -/
def optAbsentRow : RawRow :=
  { issue_id := .strV "A-2", issue_type := .strV "story",
    status := .strV "Done", created := .timeV 100,
    sprint_id := .strV "S1", sprint_start := .timeV 100,
    sprint_end := .timeV 200 }

theorem C8_row_validation_witness :
    (∃ e : SchemaError, validate_and_normalize
      { cols := CSV_HEADERS, rows := [negRow] } true = .error e) ∧
    (∃ out, validate_and_normalize
        { cols := CSV_HEADERS, rows := [optAbsentRow] } true = .ok out ∧
      (∀ r ∈ out.rows, r.story_points = .missing ∧ r.updated = .missing ∧
        r.resolved = .missing ∧ r.assignee = .missing ∧
        r.reporter = .missing ∧ r.sprint_name = .missing ∧
        r.parent_id = .missing ∧ r.labels = .missing ∧
        r.priority = .missing) ∧
      RawCell.missing ≠ RawCell.strV "") :=
  ⟨C8_row_validation.1 { cols := CSV_HEADERS, rows := [negRow] }
    ⟨negRow, by with_unfolding_all decide⟩,
   C8_row_validation.2 { cols := CSV_HEADERS, rows := [optAbsentRow] } rfl
    (by with_unfolding_all decide)⟩

/-! ## C9: no mutation of the input frame -/

lemma getElem?_append_lt {τ : Type} (σ : List τ) (x : τ) (i : ℕ)
    (h : i < σ.length) : (σ ++ [x])[i]? = σ[i]? := by
  rw [List.getElem?_append, if_pos h]

lemma lookup_append2 {τ : Type} (σ : List τ) (a b : τ) (i : ℕ)
    (h : i < σ.length) : ((σ ++ [a]) ++ [b])[i]? = σ[i]? := by
  have h1 : i < (σ ++ [a]).length := by simp; omega
  rw [getElem?_append_lt _ b _ h1, getElem?_append_lt _ a _ h]

lemma lookup_append3 {τ : Type} (σ : List τ) (a b c : τ) (i : ℕ)
    (h : i < σ.length) : (((σ ++ [a]) ++ [b]) ++ [c])[i]? = σ[i]? := by
  have h2 : i < ((σ ++ [a]) ++ [b]).length := by simp; omega
  rw [getElem?_append_lt _ c _ h2, lookup_append2 _ _ _ _ h]

lemma lookup_append3_set {τ : Type} (σ : List τ) (a b c d : τ) (i : ℕ)
    (h : i < σ.length) :
    ((((σ ++ [a]) ++ [b]) ++ [c]).set ((σ ++ [a]) ++ [b]).length d)[i]? =
      σ[i]? := by
  rw [List.getElem?_set_ne (by simp; omega), lookup_append3 _ _ _ _ _ h]

lemma lookup_alloc_set {τ : Type} (σ : List τ) (a b : τ) (i : ℕ)
    (h : i < σ.length) : ((σ ++ [a]).set σ.length b)[i]? = σ[i]? := by
  rw [List.getElem?_set_ne (by omega), getElem?_append_lt _ a _ h]

lemma lookup_alloc_set3 {τ : Type} (σ : List τ) (a b c d : τ) (i : ℕ)
    (h : i < σ.length) :
    ((((σ ++ [a]).set σ.length b).set σ.length c).set σ.length d)[i]? =
      σ[i]? := by
  rw [List.getElem?_set_ne (by omega), List.getElem?_set_ne (by omega),
    lookup_alloc_set _ _ _ _ h]

/-- C9: under the heap model, `validate_and_normalize` and the five KPI
functions never mutate the input frame: the store cell of the input is
unchanged by the call (the normalizer works on its `df.copy()`, the KPI
functions on fresh frames), the normalizer's returned table is a new
reference distinct from the input, and each KPI call returns the pure
aggregation of the input as a fresh value. -/
theorem C9_no_mutation :
    (∀ (σ : List RawTable) (df : ℕ) (vr : Bool), df < σ.length →
      ((validate_and_normalize_st σ df vr).1)[df]? = σ[df]? ∧
      (∀ ref, (validate_and_normalize_st σ df vr).2 = .ok ref → ref ≠ df)) ∧
    (∀ (σ : List (List Row)) (df : ℕ), df < σ.length →
      ((calc_velocity_st σ df).1)[df]? = σ[df]? ∧
      (calc_velocity_st σ df).2 = calc_velocity (stRead σ df)) ∧
    (∀ (σ : List (List Row)) (df : ℕ), df < σ.length →
      ((calc_throughput_st σ df).1)[df]? = σ[df]? ∧
      (calc_throughput_st σ df).2 = calc_throughput (stRead σ df)) ∧
    (∀ (σ : List (List Row)) (df : ℕ), df < σ.length →
      ((calc_carryover_rate_st σ df).1)[df]? = σ[df]? ∧
      (calc_carryover_rate_st σ df).2 = calc_carryover_rate (stRead σ df)) ∧
    (∀ (σ : List (List Row)) (df : ℕ), df < σ.length →
      ((calc_cycle_time_st σ df).1)[df]? = σ[df]? ∧
      (calc_cycle_time_st σ df).2 = calc_cycle_time (stRead σ df)) ∧
    (∀ (σ : List (List Row)) (df : ℕ), df < σ.length →
      ((calc_defect_ratio_st σ df).1)[df]? = σ[df]? ∧
      (calc_defect_ratio_st σ df).2 = calc_defect_ratio (stRead σ df)) := by
  refine ⟨?_, ?_, ?_, ?_, ?_, ?_⟩
  · intro σ df vr h
    constructor
    · simp only [validate_and_normalize_st, stAlloc, stWrite, stRead]
      split
      · exact lookup_alloc_set σ _ _ df h
      · split
        · split
          · exact lookup_alloc_set3 σ _ _ _ _ df h
          · exact lookup_alloc_set3 σ _ _ _ _ df h
        · exact lookup_alloc_set3 σ _ _ _ _ df h
    · intro ref href
      simp only [validate_and_normalize_st, stAlloc, stWrite, stRead] at href
      split at href
      · cases href
      · split at href
        · split at href
          · cases href
          · cases href
            omega
        · cases href
          omega
  · intro σ df h
    exact ⟨lookup_append3 σ _ _ _ df h, rfl⟩
  · intro σ df h
    exact ⟨lookup_append2 σ _ _ df h, rfl⟩
  · intro σ df h
    exact ⟨lookup_append2 σ _ _ df h, rfl⟩
  · intro σ df h
    exact ⟨lookup_append3_set σ _ _ _ _ df h, rfl⟩
  · intro σ df h
    exact ⟨lookup_append2 σ _ _ df h, rfl⟩

/-- An empty raw frame used to instantiate the heap theorem. -/
def emptyRawTable : RawTable := { cols := [], rows := [] }

theorem C9_no_mutation_witness :
    (((validate_and_normalize_st [emptyRawTable] 0 true).1)[0]? =
        [emptyRawTable][0]? ∧
      (∀ ref, (validate_and_normalize_st [emptyRawTable] 0 true).2 =
        .ok ref → ref ≠ 0)) ∧
    (((calc_velocity_st [exW] 0).1)[0]? = [exW][0]? ∧
      (calc_velocity_st [exW] 0).2 = calc_velocity (stRead [exW] 0)) ∧
    (((calc_throughput_st [exW] 0).1)[0]? = [exW][0]? ∧
      (calc_throughput_st [exW] 0).2 = calc_throughput (stRead [exW] 0)) ∧
    (((calc_carryover_rate_st [exW] 0).1)[0]? = [exW][0]? ∧
      (calc_carryover_rate_st [exW] 0).2 =
        calc_carryover_rate (stRead [exW] 0)) ∧
    (((calc_cycle_time_st [exW] 0).1)[0]? = [exW][0]? ∧
      (calc_cycle_time_st [exW] 0).2 = calc_cycle_time (stRead [exW] 0)) ∧
    (((calc_defect_ratio_st [exW] 0).1)[0]? = [exW][0]? ∧
      (calc_defect_ratio_st [exW] 0).2 =
        calc_defect_ratio (stRead [exW] 0)) :=
  ⟨C9_no_mutation.1 [emptyRawTable] 0 true (by simp),
   C9_no_mutation.2.1 [exW] 0 (by simp),
   C9_no_mutation.2.2.1 [exW] 0 (by simp),
   C9_no_mutation.2.2.2.1 [exW] 0 (by simp),
   C9_no_mutation.2.2.2.2.1 [exW] 0 (by simp),
   C9_no_mutation.2.2.2.2.2 [exW] 0 (by simp)⟩

end SprintSense
